import Mathlib

/-!
Verification of the live-lottery / red-packet service of BiliOutils
(src/service/live-lottery.service.ts), via a shallow embedding.

Remote calls are modelled by an oracle (structure Env) giving each request
either an exception (Except.error) or a typed response envelope.  Every
outbound operation (delay, fetch, join) is recorded in a trace (List Op),
in the order the code awaits them.  The module-global accumulator
newFollowUp is threaded explicitly as a List FollowId.
-/

namespace LiveLottery

/-- Streamer identifier recorded in the accumulator: the TS array holds
numbers (uids) and strings (display names). -/
inductive FollowId where
  | num : Nat → FollowId
  | str : String → FollowId
deriving DecidableEq, Repr

/-- Modelled from the spec: the utility pushIfNotExist (imported from
../utils, not present under src/) appends the value to the list only when
it is not already an element, deduplicating against the accumulator. -/
def pushIfNotExist (l : List FollowId) (v : FollowId) : List FollowId :=
  if v ∈ l then l else l ++ [v]

/-- Modelled from the spec: the enum PendentID (../enums, not present under
src/) carries two distinct opaque badge markers, the time-lottery marker and
the red-packet marker; any other badge value matches neither. -/
inductive PendentID where
  | Time
  | RedPacket
  | Other
deriving DecidableEq, Repr

/-- Modelled from the spec: the enum RequireType (../enums, not present
under src/) has the values none, follow, level, plus other values matching
none of the three. -/
inductive RequireType where
  | None
  | Follow
  | Level
  | Other
deriving DecidableEq, Repr

/-- Modelled from the spec: the enum TianXuanStatus (../enums, not present
under src/) distinguishes the enabled status from all others. -/
inductive TianXuanStatus where
  | Enabled
  | Other
deriving DecidableEq, Repr

/-- One badge record: the value of item.pendant_info at key "2"; only the
pendent_id field is read by the code. -/
structure PendantInfo where
  pendent_id : PendentID
deriving DecidableEq, Repr

/-- A room listing entry (LiveRoomList of the dto).  pendant_info2 models
item.pendant_info at key "2" (the sole key the code reads): none when the
key is absent. -/
structure LiveRoomList where
  roomid : Nat
  uid : Nat
  uname : String
  pendant_info2 : Option PendantInfo
deriving DecidableEq, Repr

/-- Draw details returned by checkLottery (LiveCheckLotteryDto). -/
structure LotteryData where
  id : Nat
  gift_id : Nat
  gift_num : Nat
  award_name : String
  status : TianXuanStatus
  gift_price : Nat
  require_type : RequireType
  require_value : Nat
  require_text : String
deriving DecidableEq, Repr

/-- CheckedLottery: draw details plus the uid and uname of the room. -/
structure CheckedLottery extends LotteryData where
  uid : Nat
  uname : String
deriving DecidableEq, Repr

/-- One sub-category entry of the area response. -/
structure Area where
  id : String
  parent_id : String
deriving DecidableEq, Repr

/-- One major-category entry: its list of sub-categories. -/
structure AreaGroup where
  list : List Area
deriving DecidableEq, Repr

/-- Payload of getArea: data.data is the array of major categories. -/
structure AreaData where
  data : List AreaGroup
deriving DecidableEq, Repr

/-- Envelope of getArea. -/
structure AreaResp where
  code : Int
  message : String
  data : AreaData
deriving DecidableEq, Repr

/-- Payload of getLiveRoom: the list of rooms on the requested page. -/
structure RoomData where
  list : List LiveRoomList
deriving DecidableEq, Repr

/-- Envelope of getLiveRoom. -/
structure RoomResp where
  code : Int
  message : String
  data : RoomData
deriving DecidableEq, Repr

/-- Envelope of checkLottery: data is null when the room has no draw. -/
structure CheckLotteryResp where
  code : Int
  message : String
  data : Option LotteryData
deriving DecidableEq, Repr

/-- Envelope of joinLottery and joinRedPacket. -/
structure JoinResp where
  code : Int
  message : String
deriving DecidableEq, Repr

/-- One red-packet entry of popularity_red_pocket; only lot_id and
lot_status are read. -/
structure RedPocketEntry where
  lot_id : Nat
  lot_status : Nat
deriving DecidableEq, Repr

/-- Payload of checkRedPacket: popularity_red_pocket is null or an array of
entries (none models null; some [] models a present empty array, which in
the code passes the truthiness test and then throws on destructuring the
first element, swallowed by the empty catch). -/
structure RedPacketData where
  popularity_red_pocket : Option (List RedPocketEntry)
deriving DecidableEq, Repr

/-- Envelope of checkRedPacket. -/
structure CheckRedPacketResp where
  code : Int
  data : RedPacketData
deriving DecidableEq, Repr

/-- The area identifier pair built by getLiveArea (LiveAreaType). -/
structure LiveAreaType where
  areaId : String
  parentId : String
deriving DecidableEq, Repr

/-- TaskConfig fields read by this service. -/
structure TaskConfigT where
  LOTTERY_UP_BLACKLIST : List Nat
  LOTTERY_EXCLUDE : List String
  LOTTERY_INCLUDE : List String
  LOTTERY_PAGE_NUM : Nat
deriving Repr

/-- TaskModule fields read by this service. -/
structure TaskModuleT where
  userLevel : Nat
deriving Repr

/-- Outbound operations, in await order: fixed delays and remote requests. -/
inductive Op where
  | delay : Nat → Op
  | getArea : Op
  | getLiveRoom : String → String → Nat → Op
  | checkLottery : Nat → Op
  | joinLottery : Nat → Nat → Nat → Op
  | checkRedPacket : Nat → Op
  | joinRedPacket : Nat → Nat → Nat → Op
deriving DecidableEq, Repr

abbrev Trace := List Op

/-- Oracle for the remote platform: each request either raises (error
message) or returns its typed envelope.  Responses are a function of the
request arguments, matching the sequential, memoryless use in the code. -/
structure Env where
  getArea : Except String AreaResp
  getLiveRoom : String → String → Nat → Except String RoomResp
  checkLottery : Nat → Except String CheckLotteryResp
  joinLottery : Nat → Nat → Nat → Except String JoinResp
  checkRedPacket : Nat → Except String CheckRedPacketResp
  joinRedPacket : Nat → Nat → Nat → Except String JoinResp

/-! ### JS string primitives used by the service -/

/-- Whether pat occurs as a contiguous substring of l. -/
def hasSubstr (l pat : List Char) : Bool :=
  pat.isPrefixOf l ||
    match l with
    | [] => false
    | _ :: rest => hasSubstr rest pat

/-- Modelled: JS String.prototype.match with the configured plain
(metacharacter-free) pattern strings is substring search. -/
def jsMatch (s pat : String) : Bool :=
  hasSubstr s.toList pat.toList

/-- JS String.prototype.replace with a string pattern replaces only the
first occurrence (here the replacement is the empty string: deletion). -/
def removeFirst (l pat : List Char) : List Char :=
  match l with
  | [] => []
  | c :: rest =>
    if pat.isPrefixOf l then l.drop pat.length
    else c :: removeFirst rest pat

/-- Leading JS whitespace removed. -/
def trimLeadingWs (s : String) : String :=
  String.mk (s.toList.dropWhile Char.isWhitespace)

/-- Trailing JS whitespace removed. -/
def trimTrailingWs (s : String) : String :=
  String.mk ((s.toList.reverse.dropWhile Char.isWhitespace).reverse)

/-- Split a character list at every plus sign, keeping empty pieces, as JS
String.prototype.split does with a non-empty separator. -/
def splitOnPlusChars : List Char → List (List Char)
  | [] => [[]]
  | c :: rest =>
    let r := splitOnPlusChars rest
    if c = '+' then [] :: r
    else (c :: r.headD []) :: r.tail

/-- JS split on the regex of one plus sign with surrounding whitespace:
split on the plus signs, then strip the whitespace adjacent to each
separator, i.e. trailing whitespace of every piece but the last and leading
whitespace of every piece but the first. -/
def splitOnPlusWs (s : String) : List String :=
  let pieces := (splitOnPlusChars s.toList).map String.mk
  let n := pieces.length
  (pieces.enum).map (fun p =>
    let p1 := if p.1 = 0 then p.2 else trimLeadingWs p.2
    if p.1 = n - 1 then p1 else trimTrailingWs p1)

/-! ### The service functions (translated from live-lottery.service.ts) -/

/-- getRequireUp: strip the first occurrence of the follow marker, split on
plus with surrounding whitespace, and drop the first token. -/
def getRequireUp (requireText : String) : List String :=
  let t := String.mk (removeFirst requireText.toList "关注主播".toList)
  let requireTextList := splitOnPlusWs t
  requireTextList.drop 1

/-- The transform getLiveArea applies to the payload: data.data mapped to
its lists, each entry projected to the pair of areaId and parentId. -/
def toLiveAreaList (d : AreaData) : List (List LiveAreaType) :=
  d.data.map (fun item => item.list.map (fun area => ⟨area.id, area.parent_id⟩))

/-- getLiveArea: one getArea call; a non-zero code is only logged, the data
is transformed regardless; an exception is logged and rethrown. -/
def getLiveArea (env : Env) : Trace × Except String (List (List LiveAreaType)) :=
  match env.getArea with
  | .error e => ([Op.getArea], .error e)
  | .ok resp => ([Op.getArea], .ok (toLiveAreaList resp.data))

/-- pendentLottery: partition rooms by the badge at key "2"; rooms without
that key, or with another badge, land in neither list. -/
def pendentLottery (list : List LiveRoomList) :
    List LiveRoomList × List LiveRoomList :=
  list.foldl
    (fun acc item =>
      match item.pendant_info2 with
      | none => acc
      | some p =>
        match p.pendent_id with
        | PendentID.Time => (acc.1 ++ [item], acc.2)
        | PendentID.RedPacket => (acc.1, acc.2 ++ [item])
        | PendentID.Other => acc)
    ([], [])

inductive LotType where
  | lottery
  | redPack
deriving DecidableEq, Repr

/-- getLotteryRoomList: a 100ms delay, then one page fetch; non-zero code
is only logged; exceptions are logged and rethrown. -/
def getLotteryRoomList (env : Env) (areaId parentId : String) (page : Nat)
    (lotType : LotType) : Trace × Except String (List LiveRoomList) :=
  let tr : Trace := [Op.delay 100, Op.getLiveRoom parentId areaId page]
  match env.getLiveRoom parentId areaId page with
  | .error e => (tr, .error e)
  | .ok resp =>
    let p := pendentLottery resp.data.list
    (tr, .ok (match lotType with
              | LotType.lottery => p.1
              | LotType.redPack => p.2))

/-- Whether the award name matches some configured exclude pattern. -/
def isExcludedName (cfg : TaskConfigT) (name : String) : Bool :=
  cfg.LOTTERY_EXCLUDE.any (fun text => jsMatch name text)

/-- Whether the award name matches some configured include pattern. -/
def isIncludedName (cfg : TaskConfigT) (name : String) : Bool :=
  cfg.LOTTERY_INCLUDE.any (fun text => jsMatch name text)

/-- checkLotteryRoom: blacklist, then one checkLottery call whose exception
is caught (skip); non-zero code, null data, excluded-without-included award
name, non-enabled status, positive gift price, and unmet requirements all
skip; a level requirement met by the configured user level, or a none or
follow requirement, accepts. -/
def checkLotteryRoom (env : Env) (cfg : TaskConfigT) (tm : TaskModuleT)
    (room : LiveRoomList) : Trace × Option LotteryData :=
  if room.uid ∈ cfg.LOTTERY_UP_BLACKLIST then ([], none)
  else
    match env.checkLottery room.roomid with
    | .error _ => ([Op.checkLottery room.roomid], none)
    | .ok resp =>
      ([Op.checkLottery room.roomid],
       if resp.code ≠ 0 then none
       else
         match resp.data with
         | none => none
         | some data =>
           let isExclude := isExcludedName cfg data.award_name
           let isInclude := isIncludedName cfg data.award_name
           if !isInclude && isExclude then none
           else if data.status ≠ TianXuanStatus.Enabled then none
           else if data.gift_price > 0 then none
           else if data.require_type ≠ RequireType.None ∧ data.require_type ≠ RequireType.Follow then
             if data.require_type = RequireType.Level ∧ tm.userLevel ≥ data.require_value then
               some data
             else none
           else some data)

/-- The room loop of checkLotteryRoomList: check each room in listing
order, collecting accepted draws with the uid and uname of the room and a
100ms delay after each accepted room. -/
def checkLotteryRooms (env : Env) (cfg : TaskConfigT) (tm : TaskModuleT) :
    List LiveRoomList → Trace × List CheckedLottery
  | [] => ([], [])
  | room :: rest =>
    let c := checkLotteryRoom env cfg tm room
    let next := checkLotteryRooms env cfg tm rest
    match c.2 with
    | none => (c.1 ++ next.1, next.2)
    | some data =>
      (c.1 ++ [Op.delay 100] ++ next.1,
       { toLotteryData := data, uid := room.uid, uname := room.uname } :: next.2)

/-- checkLotteryRoomList: fetch one page, then run the room loop. -/
def checkLotteryRoomList (env : Env) (cfg : TaskConfigT) (tm : TaskModuleT)
    (areaId parentId : String) (page : Nat) :
    Trace × Except String (List CheckedLottery) :=
  match getLotteryRoomList env areaId parentId page LotType.lottery with
  | (tr, .error e) => (tr, .error e)
  | (tr, .ok roomList) =>
    let out := checkLotteryRooms env cfg tm roomList
    (tr ++ out.1, .ok out.2)

/-- doLottery: one joinLottery call; exceptions are caught, non-zero codes
only logged; on success with a follow requirement the uid is pushed
(deduplicated) followed by each extra name from the requirement text. -/
def doLottery (env : Env) (st : List FollowId) (lottery : CheckedLottery) :
    Trace × List FollowId :=
  let tr : Trace := [Op.joinLottery lottery.id lottery.gift_id lottery.gift_num]
  match env.joinLottery lottery.id lottery.gift_id lottery.gift_num with
  | .error _ => (tr, st)
  | .ok resp =>
    if resp.code ≠ 0 then (tr, st)
    else if lottery.require_type = RequireType.Follow then
      let st1 := pushIfNotExist st (FollowId.num lottery.uid)
      let st2 := (getRequireUp lottery.require_text).foldl
        (fun s text => pushIfNotExist s (FollowId.str text)) st1
      (tr, st2)
    else (tr, st)

/-- One page of the lottery loop body: each checked room of the page run
through doLottery and followed by a 300ms delay. -/
def doLotteryRooms (env : Env) (st : List FollowId) :
    List CheckedLottery → Trace × List FollowId
  | [] => ([], st)
  | room :: rest =>
    let r := doLottery env st room
    let next := doLotteryRooms env r.2 rest
    (r.1 ++ [Op.delay 300] ++ next.1, next.2)

/-- doLotteryArea page loop, structurally recursive on the count of pages
left; page is the next page number.  A rethrown page-fetch exception aborts
the remaining pages (some e); otherwise none. -/
def doLotteryPages (env : Env) (cfg : TaskConfigT) (tm : TaskModuleT)
    (areaId parentId : String) (st : List FollowId) :
    Nat → Nat → Trace × List FollowId × Option String
  | 0, _ => ([], st, none)
  | pagesLeft + 1, page =>
    match checkLotteryRoomList env cfg tm areaId parentId page with
    | (tr, .error e) => (tr, st, some e)
    | (tr, .ok rooms) =>
      let r := doLotteryRooms env st rooms
      let rest := doLotteryPages env cfg tm areaId parentId r.2 pagesLeft (page + 1)
      (tr ++ r.1 ++ rest.1, rest.2.1, rest.2.2)

/-- doLotteryArea: pages 1 through num of one sub-category. -/
def doLotteryArea (env : Env) (cfg : TaskConfigT) (tm : TaskModuleT)
    (st : List FollowId) (areaId parentId : String) (num : Nat) :
    Trace × List FollowId × Option String :=
  doLotteryPages env cfg tm areaId parentId st num 1

/-- The inner loop of liveLotteryService over the sub-categories of one
major category; an exception aborts the remaining sub-categories. -/
def doLotteryAreas (env : Env) (cfg : TaskConfigT) (tm : TaskModuleT) :
    List FollowId → List LiveAreaType → Trace × List FollowId × Option String
  | st, [] => ([], st, none)
  | st, area :: rest =>
    match doLotteryArea env cfg tm st area.areaId area.parentId cfg.LOTTERY_PAGE_NUM with
    | (tr, st1, some e) => (tr, st1, some e)
    | (tr, st1, none) =>
      let r := doLotteryAreas env cfg tm st1 rest
      (tr ++ r.1, r.2.1, r.2.2)

/-- The outer loop of liveLotteryService over the major categories. -/
def doLotteryGroups (env : Env) (cfg : TaskConfigT) (tm : TaskModuleT) :
    List FollowId → List (List LiveAreaType) → Trace × List FollowId × Option String
  | st, [] => ([], st, none)
  | st, areas :: rest =>
    match doLotteryAreas env cfg tm st areas with
    | (tr, st1, some e) => (tr, st1, some e)
    | (tr, st1, none) =>
      let r := doLotteryGroups env cfg tm st1 rest
      (tr ++ r.1, r.2.1, r.2.2)

/-- liveLotteryService: reset the accumulator, fetch the categories, walk
every major and sub-category, and return the accumulator; a rethrown
exception anywhere propagates out as error. -/
def liveLotteryService (env : Env) (cfg : TaskConfigT) (tm : TaskModuleT) :
    Trace × Except String (List FollowId) :=
  match getLiveArea env with
  | (tr, .error e) => (tr, .error e)
  | (tr, .ok areaList) =>
    match doLotteryGroups env cfg tm [] areaList with
    | (tr2, _, some e) => (tr ++ tr2, .error e)
    | (tr2, st, none) => (tr ++ tr2, .ok st)

/-- getRedPacketId: one checkRedPacket call; every exception is swallowed by
the empty catch; non-zero code, null list, and closed status (2) yield
nothing; otherwise the lot_id of the first entry (even when it is 0).  An
empty present array throws on destructuring the first entry, swallowed by
the catch. -/
def getRedPacketId (env : Env) (roomId : Nat) : Trace × Option Nat :=
  match env.checkRedPacket roomId with
  | .error _ => ([Op.checkRedPacket roomId], none)
  | .ok resp =>
    ([Op.checkRedPacket roomId],
     if resp.code ≠ 0 then none
     else
       match resp.data.popularity_red_pocket with
       | none => none
       | some [] => none
       | some (entry :: _) =>
         if entry.lot_status = 2 then none
         else some entry.lot_id)

/-- RedPacket handle collected per qualifying room. -/
structure RedPacket where
  uid : Nat
  uname : String
  lot_id : Nat
  room_id : Nat
deriving DecidableEq, Repr

/-- The room loop of getRedPacketRoom: for each room take the red-packet
id; a truthy (present, non-zero) lot id collects the room and is followed
by a 100ms delay. -/
def getRedPacketRooms (env : Env) : List LiveRoomList → Trace × List RedPacket
  | [] => ([], [])
  | room :: rest =>
    let c := getRedPacketId env room.roomid
    let next := getRedPacketRooms env rest
    match c.2 with
    | some lotId =>
      if lotId ≠ 0 then
        (c.1 ++ [Op.delay 100] ++ next.1,
         { uid := room.uid, uname := room.uname,
           lot_id := lotId, room_id := room.roomid } :: next.2)
      else (c.1 ++ next.1, next.2)
    | none => (c.1 ++ next.1, next.2)

/-- getRedPacketRoom: fetch one red-packet page, then run the room loop. -/
def getRedPacketRoom (env : Env) (areaId parentId : String) (page : Nat) :
    Trace × Except String (List RedPacket) :=
  match getLotteryRoomList env areaId parentId page LotType.redPack with
  | (tr, .error e) => (tr, .error e)
  | (tr, .ok roomList) =>
    let out := getRedPacketRooms env roomList
    (tr ++ out.1, .ok out.2)

/-- doRedPacket: one joinRedPacket call; exceptions caught, non-zero codes
only logged; on success the uid is pushed unconditionally (plain push, no
deduplication). -/
def doRedPacket (env : Env) (st : List FollowId) (redPacket : RedPacket) :
    Trace × List FollowId :=
  let tr : Trace := [Op.joinRedPacket redPacket.room_id redPacket.lot_id redPacket.uid]
  match env.joinRedPacket redPacket.room_id redPacket.lot_id redPacket.uid with
  | .error _ => (tr, st)
  | .ok resp =>
    if resp.code ≠ 0 then (tr, st)
    else (tr, st ++ [FollowId.num redPacket.uid])

/-- One page of the red-packet loop body: each collected room joined and
followed by a 200ms delay. -/
def doRedPackRooms (env : Env) (st : List FollowId) :
    List RedPacket → Trace × List FollowId
  | [] => ([], st)
  | room :: rest =>
    let r := doRedPacket env st room
    let next := doRedPackRooms env r.2 rest
    (r.1 ++ [Op.delay 200] ++ next.1, next.2)

/-- doRedPackArea page loop, structurally recursive on the count of pages
left. -/
def doRedPackPages (env : Env) (areaId parentId : String) (st : List FollowId) :
    Nat → Nat → Trace × List FollowId × Option String
  | 0, _ => ([], st, none)
  | pagesLeft + 1, page =>
    match getRedPacketRoom env areaId parentId page with
    | (tr, .error e) => (tr, st, some e)
    | (tr, .ok rooms) =>
      let r := doRedPackRooms env st rooms
      let rest := doRedPackPages env areaId parentId r.2 pagesLeft (page + 1)
      (tr ++ r.1 ++ rest.1, rest.2.1, rest.2.2)

/-- doRedPackArea: pages 1 through num of one sub-category. -/
def doRedPackArea (env : Env) (st : List FollowId) (areaId parentId : String)
    (num : Nat) : Trace × List FollowId × Option String :=
  doRedPackPages env areaId parentId st num 1

/-- The inner loop of liveRedPackService over sub-categories. -/
def doRedPackAreas (env : Env) (cfg : TaskConfigT) :
    List FollowId → List LiveAreaType → Trace × List FollowId × Option String
  | st, [] => ([], st, none)
  | st, area :: rest =>
    match doRedPackArea env st area.areaId area.parentId cfg.LOTTERY_PAGE_NUM with
    | (tr, st1, some e) => (tr, st1, some e)
    | (tr, st1, none) =>
      let r := doRedPackAreas env cfg st1 rest
      (tr ++ r.1, r.2.1, r.2.2)

/-- The outer loop of liveRedPackService over major categories. -/
def doRedPackGroups (env : Env) (cfg : TaskConfigT) :
    List FollowId → List (List LiveAreaType) → Trace × List FollowId × Option String
  | st, [] => ([], st, none)
  | st, areas :: rest =>
    match doRedPackAreas env cfg st areas with
    | (tr, st1, some e) => (tr, st1, some e)
    | (tr, st1, none) =>
      let r := doRedPackGroups env cfg st1 rest
      (tr ++ r.1, r.2.1, r.2.2)

/-- liveRedPackService: reset the accumulator, fetch the categories, walk
every category, and return the accumulator. -/
def liveRedPackService (env : Env) (cfg : TaskConfigT) :
    Trace × Except String (List FollowId) :=
  match getLiveArea env with
  | (tr, .error e) => (tr, .error e)
  | (tr, .ok areaList) =>
    match doRedPackGroups env cfg [] areaList with
    | (tr2, _, some e) => (tr ++ tr2, .error e)
    | (tr2, st, none) => (tr ++ tr2, .ok st)

/-! ### Trace predicates and derived characterizations -/

/-- Whether an operation is a red-packet join request. -/
def isJoinRed : Op → Bool
  | Op.joinRedPacket _ _ _ => true
  | _ => false

/-- Whether an operation is a lottery join request. -/
def isJoinLot : Op → Bool
  | Op.joinLottery _ _ _ => true
  | _ => false

/-- Every operation satisfying isJoin is immediately followed in the trace
by a fixed delay of d milliseconds (in particular no such operation is
last). -/
def joinsFollowedBy (isJoin : Op → Bool) (d : Nat) : Trace → Bool
  | [] => true
  | [op] => !isJoin op
  | op :: op2 :: rest =>
    (!isJoin op || decide (op2 = Op.delay d)) && joinsFollowedBy isJoin d (op2 :: rest)

/-- Helper for joinsPrecededBy carrying the previous operation. -/
def joinsPrecededByFrom (isJoin : Op → Bool) (d : Nat) : Option Op → Trace → Bool
  | _, [] => true
  | prev, op :: rest =>
    (!isJoin op || decide (prev = some (Op.delay d))) &&
      joinsPrecededByFrom isJoin d (some op) rest

/-- Every operation satisfying isJoin is immediately preceded in the trace
by a fixed delay of d milliseconds (a join at the head of the trace has no
predecessor and fails the check). -/
def joinsPrecededBy (isJoin : Op → Bool) (d : Nat) (tr : Trace) : Bool :=
  joinsPrecededByFrom isJoin d none tr

/-- Number of red-packet join requests for the given room id in a trace. -/
def countJoinRed (tr : Trace) (rid : Nat) : Nat :=
  tr.countP (fun op =>
    match op with
    | Op.joinRedPacket r _ _ => r == rid
    | _ => false)

/-- Whether the red-packet check for a room id yields a truthy lot id, i.e.
the room qualifies as a red-packet candidate: code 0, a non-empty
popularity_red_pocket whose first entry has lot_status other than 2 and a
non-zero lot_id. -/
def redQualifies (env : Env) (rid : Nat) : Bool :=
  match (getRedPacketId env rid).2 with
  | some lotId => lotId != 0
  | none => false

/-! ### Heap model of the accumulator variable

The TS accumulator newFollowUp is a module-scoped variable holding a
reference to a mutable array.  Each run starts with the statement that
rebinds the variable to a fresh empty array literal; every subsequent write
of the run is a push through the variable, hence onto that fresh array
only.  The heap model makes the aliasing explicit: the heap is the list of
all arrays allocated so far, a reference is an index into it, a run
allocates one fresh cell, fills it with the follow list the run computes,
and returns its index. -/

/-- Heap of accumulator arrays; a reference handed to a caller is an index
into arrays. -/
structure AccHeap where
  arrays : List (List FollowId)
deriving Repr

/-- liveLotteryService under the heap model: rebind to a fresh empty array,
run, return the reference to the fresh array (or the rethrown error). -/
def liveLotteryServiceHeap (env : Env) (cfg : TaskConfigT) (tm : TaskModuleT)
    (h : AccHeap) : AccHeap × Except String Nat :=
  let fresh := h.arrays.length
  match getLiveArea env with
  | (_, .error e) => (⟨h.arrays ++ [[]]⟩, .error e)
  | (_, .ok areaList) =>
    let r := doLotteryGroups env cfg tm [] areaList
    (⟨h.arrays ++ [r.2.1]⟩,
     match r.2.2 with
     | some e => .error e
     | none => .ok fresh)

/-- liveRedPackService under the heap model. -/
def liveRedPackServiceHeap (env : Env) (cfg : TaskConfigT)
    (h : AccHeap) : AccHeap × Except String Nat :=
  let fresh := h.arrays.length
  match getLiveArea env with
  | (_, .error e) => (⟨h.arrays ++ [[]]⟩, .error e)
  | (_, .ok areaList) =>
    let r := doRedPackGroups env cfg [] areaList
    (⟨h.arrays ++ [r.2.1]⟩,
     match r.2.2 with
     | some e => .error e
     | none => .ok fresh)

/-! ### Concrete inputs used by counterexamples and witnesses -/

/-- A red-packet room, roomid 10, streamer uid 5. -/
def roomR1 : LiveRoomList := ⟨10, 5, "u1", some ⟨PendentID.RedPacket⟩⟩

/-- A second red-packet room, roomid 11, same streamer uid 5. -/
def roomR2 : LiveRoomList := ⟨11, 5, "u2", some ⟨PendentID.RedPacket⟩⟩

/-- Environment in which page 1 lists two red-packet rooms of the same
streamer, every red-packet check returns an open packet with lot_id 7, and
every join succeeds; lottery checks raise. -/
def envDup : Env where
  getArea := .ok ⟨0, "", ⟨[⟨[⟨"1", "2"⟩]⟩]⟩⟩
  getLiveRoom := fun _ _ page =>
    if page = 1 then .ok ⟨0, "", ⟨[roomR1, roomR2]⟩⟩ else .ok ⟨0, "", ⟨[]⟩⟩
  checkLottery := fun _ => .error "boom"
  joinLottery := fun _ _ _ => .error "boom"
  checkRedPacket := fun _ => .ok ⟨0, ⟨some [⟨7, 0⟩]⟩⟩
  joinRedPacket := fun _ _ _ => .ok ⟨0, ""⟩

/-- Configuration scanning a single page, with no blacklist and no
patterns. -/
def cfgOnePage : TaskConfigT := ⟨[], [], [], 1⟩

/-- Configured user level used by witnesses. -/
def tmA : TaskModuleT := ⟨10⟩

/-- Environment whose only red-packet room has a non-empty red-packet list
with lot_status 0 (open) but lot_id 0; joins would succeed if issued. -/
def envZero : Env where
  getArea := .ok ⟨0, "", ⟨[⟨[⟨"1", "2"⟩]⟩]⟩⟩
  getLiveRoom := fun _ _ page =>
    if page = 1 then .ok ⟨0, "", ⟨[roomR1]⟩⟩ else .ok ⟨0, "", ⟨[]⟩⟩
  checkLottery := fun _ => .error "boom"
  joinLottery := fun _ _ _ => .error "boom"
  checkRedPacket := fun _ => .ok ⟨0, ⟨some [⟨0, 0⟩]⟩⟩
  joinRedPacket := fun _ _ _ => .ok ⟨0, ""⟩

/-- A time-lottery room, roomid 20, streamer uid 9. -/
def roomL1 : LiveRoomList := ⟨20, 9, "lotup", some ⟨PendentID.Time⟩⟩

/-- Draw details with a follow requirement naming two extra streamers. -/
def drawFollow : LotteryData :=
  ⟨1, 2, 3, "prize", TianXuanStatus.Enabled, 0, RequireType.Follow, 0, "关注主播 A + B + C"⟩

/-- Environment with one lottery room whose draw has a follow requirement;
the area fetch reports the non-success code 7 (logged, not fatal); all
joins succeed. -/
def envLot : Env where
  getArea := .ok ⟨7, "err", ⟨[⟨[⟨"1", "2"⟩]⟩]⟩⟩
  getLiveRoom := fun _ _ page =>
    if page = 1 then .ok ⟨0, "", ⟨[roomL1]⟩⟩ else .ok ⟨0, "", ⟨[]⟩⟩
  checkLottery := fun _ => .ok ⟨0, "", some drawFollow⟩
  joinLottery := fun _ _ _ => .ok ⟨0, ""⟩
  checkRedPacket := fun _ => .error "boom"
  joinRedPacket := fun _ _ _ => .error "boom"

/-- The checked lottery handle the pipeline builds for roomL1 and
drawFollow. -/
def lotCheckedA : CheckedLottery :=
  { toLotteryData := drawFollow, uid := 9, uname := "lotup" }

/-- Environment whose lottery room check and join both raise; page fetches
succeed, page 1 listing one lottery room. -/
def envThrow : Env where
  getArea := .ok ⟨0, "", ⟨[⟨[⟨"1", "2"⟩]⟩]⟩⟩
  getLiveRoom := fun _ _ page =>
    if page = 1 then .ok ⟨0, "", ⟨[roomL1]⟩⟩ else .ok ⟨0, "", ⟨[]⟩⟩
  checkLottery := fun _ => .error "boom"
  joinLottery := fun _ _ _ => .error "boom"
  checkRedPacket := fun _ => .error "boom"
  joinRedPacket := fun _ _ _ => .error "boom"

/-- Draw details with a level requirement of 10. -/
def drawLevel : LotteryData :=
  ⟨1, 2, 3, "prize", TianXuanStatus.Enabled, 0, RequireType.Level, 10, ""⟩

/-- Environment whose lottery room carries drawLevel. -/
def envLevel : Env where
  getArea := .ok ⟨0, "", ⟨[⟨[⟨"1", "2"⟩]⟩]⟩⟩
  getLiveRoom := fun _ _ page =>
    if page = 1 then .ok ⟨0, "", ⟨[roomL1]⟩⟩ else .ok ⟨0, "", ⟨[]⟩⟩
  checkLottery := fun _ => .ok ⟨0, "", some drawLevel⟩
  joinLottery := fun _ _ _ => .ok ⟨0, ""⟩
  checkRedPacket := fun _ => .error "boom"
  joinRedPacket := fun _ _ _ => .error "boom"

/-- Draw details whose award name matches both the exclude pattern and the
include pattern of cfgPat. -/
def drawTest : LotteryData :=
  ⟨1, 2, 3, "测试奖品", TianXuanStatus.Enabled, 0, RequireType.None, 0, ""⟩

/-- Environment whose lottery room carries drawTest. -/
def envTest : Env where
  getArea := .ok ⟨0, "", ⟨[⟨[⟨"1", "2"⟩]⟩]⟩⟩
  getLiveRoom := fun _ _ page =>
    if page = 1 then .ok ⟨0, "", ⟨[roomL1]⟩⟩ else .ok ⟨0, "", ⟨[]⟩⟩
  checkLottery := fun _ => .ok ⟨0, "", some drawTest⟩
  joinLottery := fun _ _ _ => .ok ⟨0, ""⟩
  checkRedPacket := fun _ => .error "boom"
  joinRedPacket := fun _ _ _ => .error "boom"

/-- Configuration with exclude pattern matching drawTest and include
pattern also matching it. -/
def cfgPat : TaskConfigT := ⟨[], ["测试"], ["测试奖"], 1⟩

/-- A heap holding one previously returned accumulator array. -/
def heap1 : AccHeap := ⟨[[FollowId.num 1]]⟩

/-! ### Helper lemmas -/

theorem getLotteryRoomList_fst (env : Env) (a p : String) (page : Nat) (t : LotType) :
    (getLotteryRoomList env a p page t).1 = [Op.delay 100, Op.getLiveRoom p a page] := by
  unfold getLotteryRoomList
  cases env.getLiveRoom p a page <;> rfl

theorem getRedPacketId_fst (env : Env) (rid : Nat) :
    (getRedPacketId env rid).1 = [Op.checkRedPacket rid] := by
  unfold getRedPacketId
  cases env.checkRedPacket rid <;> rfl

theorem doRedPacket_fst (env : Env) (st : List FollowId) (rp : RedPacket) :
    (doRedPacket env st rp).1 = [Op.joinRedPacket rp.room_id rp.lot_id rp.uid] := by
  unfold doRedPacket
  cases env.joinRedPacket rp.room_id rp.lot_id rp.uid with
  | error e => rfl
  | ok resp =>
    by_cases hc : resp.code ≠ 0 <;> simp [hc]

theorem doLottery_fst (env : Env) (st : List FollowId) (l : CheckedLottery) :
    (doLottery env st l).1 = [Op.joinLottery l.id l.gift_id l.gift_num] := by
  unfold doLottery
  cases env.joinLottery l.id l.gift_id l.gift_num with
  | error e => rfl
  | ok resp =>
    by_cases hc : resp.code ≠ 0
    · simp [hc]
    · by_cases hf : l.require_type = RequireType.Follow <;> simp [hc, hf]

theorem checkLotteryRoom_fst_mem (env : Env) (cfg : TaskConfigT) (tm : TaskModuleT)
    (room : LiveRoomList) :
    ∀ op ∈ (checkLotteryRoom env cfg tm room).1, op = Op.checkLottery room.roomid := by
  unfold checkLotteryRoom
  split
  · simp
  · cases env.checkLottery room.roomid <;> simp

theorem checkLotteryRoom_fst (env : Env) (cfg : TaskConfigT) (tm : TaskModuleT)
    (room : LiveRoomList) (h : room.uid ∉ cfg.LOTTERY_UP_BLACKLIST) :
    (checkLotteryRoom env cfg tm room).1 = [Op.checkLottery room.roomid] := by
  unfold checkLotteryRoom
  rw [if_neg h]
  cases env.checkLottery room.roomid <;> rfl

theorem joinsFollowedBy_of_no_join (j : Op → Bool) (d : Nat) (tr : Trace)
    (h : ∀ op ∈ tr, j op = false) : joinsFollowedBy j d tr = true := by
  induction tr with
  | nil => rfl
  | cons op rest ih =>
    cases rest with
    | nil => simp [joinsFollowedBy, h op (by simp)]
    | cons op2 rest2 =>
      simp only [joinsFollowedBy, Bool.and_eq_true, Bool.or_eq_true, Bool.not_eq_true']
      exact ⟨Or.inl (h op (by simp)), ih (fun o ho => h o (by simp [List.mem_cons] at ho ⊢; tauto))⟩

theorem joinsFollowedBy_append (j : Op → Bool) (d : Nat) (a b : Trace)
    (ha : joinsFollowedBy j d a = true) (hb : joinsFollowedBy j d b = true) :
    joinsFollowedBy j d (a ++ b) = true := by
  induction a with
  | nil => simpa using hb
  | cons op rest ih =>
    cases rest with
    | nil =>
      cases b with
      | nil => simpa using ha
      | cons b0 bs =>
        simp only [joinsFollowedBy] at ha
        simp only [List.cons_append, List.nil_append, joinsFollowedBy,
          Bool.and_eq_true, Bool.or_eq_true, Bool.not_eq_true']
        exact ⟨Or.inl (by simpa using ha), by simpa using hb⟩
    | cons op2 rest2 =>
      simp only [joinsFollowedBy, Bool.and_eq_true] at ha
      simp only [List.cons_append, joinsFollowedBy, Bool.and_eq_true]
      exact ⟨ha.1, by simpa using ih ha.2⟩

theorem joinsFollowedBy_cons_of_not_join (j : Op → Bool) (d : Nat) (op : Op) (tr : Trace)
    (h : j op = false) : joinsFollowedBy j d (op :: tr) = joinsFollowedBy j d tr := by
  cases tr <;> simp [joinsFollowedBy, h]

theorem joinsFollowedBy_cons_join_delay (j : Op → Bool) (d : Nat) (op : Op) (tr : Trace) :
    joinsFollowedBy j d (op :: Op.delay d :: tr) = joinsFollowedBy j d (Op.delay d :: tr) := by
  simp [joinsFollowedBy]

theorem getLiveArea_fst (env : Env) : (getLiveArea env).1 = [Op.getArea] := by
  unfold getLiveArea
  cases env.getArea <;> rfl

theorem getRedPacketRooms_no_join (env : Env) (l : List LiveRoomList) :
    ∀ op ∈ (getRedPacketRooms env l).1, isJoinRed op = false := by
  induction l with
  | nil => simp [getRedPacketRooms]
  | cons room rest ih =>
    intro op hop
    simp only [getRedPacketRooms] at hop
    cases h : (getRedPacketId env room.roomid).2 with
    | none =>
      rw [h] at hop
      simp only [getRedPacketId_fst, List.cons_append, List.nil_append, List.mem_cons] at hop
      rcases hop with rfl | hop
      · rfl
      · exact ih op hop
    | some lotId =>
      simp only [h] at hop
      by_cases hz : lotId = 0
      · rw [if_neg (by simp [hz])] at hop
        simp only [getRedPacketId_fst, List.cons_append, List.nil_append, List.mem_cons] at hop
        rcases hop with rfl | hop
        · rfl
        · exact ih op hop
      · rw [if_pos hz] at hop
        simp only [getRedPacketId_fst, List.cons_append, List.nil_append, List.mem_cons] at hop
        rcases hop with rfl | rfl | hop
        · rfl
        · rfl
        · exact ih op hop

theorem getRedPacketRoom_no_join (env : Env) (a p : String) (page : Nat) :
    ∀ op ∈ (getRedPacketRoom env a p page).1, isJoinRed op = false := by
  intro op hop
  have hfst := getLotteryRoomList_fst env a p page LotType.redPack
  unfold getRedPacketRoom at hop
  rcases hgl : getLotteryRoomList env a p page LotType.redPack with ⟨tr, r⟩
  rw [hgl] at hop hfst
  simp only at hfst
  subst hfst
  cases r with
  | error e =>
    simp only [List.mem_cons, List.not_mem_nil, or_false] at hop
    rcases hop with rfl | rfl <;> rfl
  | ok roomList =>
    simp only [List.cons_append, List.nil_append, List.mem_cons] at hop
    rcases hop with rfl | rfl | hop
    · rfl
    · rfl
    · exact getRedPacketRooms_no_join env roomList op hop

theorem doRedPackRooms_followed (env : Env) (st : List FollowId) (rooms : List RedPacket) :
    joinsFollowedBy isJoinRed 200 (doRedPackRooms env st rooms).1 = true := by
  induction rooms generalizing st with
  | nil => rfl
  | cons room rest ih =>
    simp only [doRedPackRooms, doRedPacket_fst, List.cons_append, List.nil_append]
    rw [joinsFollowedBy_cons_join_delay, joinsFollowedBy_cons_of_not_join _ _ _ _ rfl]
    exact ih _

theorem doRedPackPages_followed (env : Env) (a p : String) (n pg : Nat) (st : List FollowId) :
    joinsFollowedBy isJoinRed 200 (doRedPackPages env a p st n pg).1 = true := by
  induction n generalizing st pg with
  | zero => rfl
  | succ n ih =>
    simp only [doRedPackPages]
    rcases hgr : getRedPacketRoom env a p pg with ⟨tr, r⟩
    have hnj : ∀ op ∈ tr, isJoinRed op = false := by
      intro op hop
      have := getRedPacketRoom_no_join env a p pg
      rw [hgr] at this
      exact this op hop
    cases r with
    | error e => exact joinsFollowedBy_of_no_join _ _ _ hnj
    | ok rooms =>
      simp only
      exact joinsFollowedBy_append _ _ _ _
        (joinsFollowedBy_append _ _ _ _ (joinsFollowedBy_of_no_join _ _ _ hnj)
          (doRedPackRooms_followed env st rooms))
        (ih _ _)

theorem doRedPackAreas_followed (env : Env) (cfg : TaskConfigT) (st : List FollowId)
    (l : List LiveAreaType) :
    joinsFollowedBy isJoinRed 200 (doRedPackAreas env cfg st l).1 = true := by
  induction l generalizing st with
  | nil => rfl
  | cons area rest ih =>
    simp only [doRedPackAreas, doRedPackArea]
    rcases h : doRedPackPages env area.areaId area.parentId st cfg.LOTTERY_PAGE_NUM 1
      with ⟨tr, st1, err⟩
    have htr : joinsFollowedBy isJoinRed 200 tr = true := by
      have := doRedPackPages_followed env area.areaId area.parentId cfg.LOTTERY_PAGE_NUM 1 st
      rw [h] at this
      exact this
    cases err with
    | some e => exact htr
    | none => exact joinsFollowedBy_append _ _ _ _ htr (ih _)

theorem doRedPackGroups_followed (env : Env) (cfg : TaskConfigT) (st : List FollowId)
    (l : List (List LiveAreaType)) :
    joinsFollowedBy isJoinRed 200 (doRedPackGroups env cfg st l).1 = true := by
  induction l generalizing st with
  | nil => rfl
  | cons areas rest ih =>
    simp only [doRedPackGroups]
    rcases h : doRedPackAreas env cfg st areas with ⟨tr, st1, err⟩
    have htr : joinsFollowedBy isJoinRed 200 tr = true := by
      have := doRedPackAreas_followed env cfg st areas
      rw [h] at this
      exact this
    cases err with
    | some e => exact htr
    | none => exact joinsFollowedBy_append _ _ _ _ htr (ih _)

theorem liveRedPackService_followed (env : Env) (cfg : TaskConfigT) :
    joinsFollowedBy isJoinRed 200 (liveRedPackService env cfg).1 = true := by
  unfold liveRedPackService
  have hfst := getLiveArea_fst env
  rcases hga : getLiveArea env with ⟨tr, r⟩
  rw [hga] at hfst
  simp only at hfst
  subst hfst
  cases r with
  | error e => rfl
  | ok areaList =>
    simp only
    rcases h : doRedPackGroups env cfg [] areaList with ⟨tr2, st, err⟩
    have htr : joinsFollowedBy isJoinRed 200 tr2 = true := by
      have := doRedPackGroups_followed env cfg [] areaList
      rw [h] at this
      exact this
    cases err with
    | some e =>
      exact joinsFollowedBy_append _ _ _ _ (by rfl) htr
    | none =>
      exact joinsFollowedBy_append _ _ _ _ (by rfl) htr

theorem checkLotteryRooms_no_join (env : Env) (cfg : TaskConfigT) (tm : TaskModuleT)
    (l : List LiveRoomList) :
    ∀ op ∈ (checkLotteryRooms env cfg tm l).1, isJoinLot op = false := by
  induction l with
  | nil => simp [checkLotteryRooms]
  | cons room rest ih =>
    intro op hop
    simp only [checkLotteryRooms] at hop
    cases h : (checkLotteryRoom env cfg tm room).2 with
    | none =>
      simp only [h, List.mem_append] at hop
      rcases hop with hop | hop
      · rw [checkLotteryRoom_fst_mem env cfg tm room op hop]
        rfl
      · exact ih op hop
    | some data =>
      simp only [h, List.append_assoc, List.mem_append, List.mem_cons,
        List.not_mem_nil, or_false] at hop
      rcases hop with hop | rfl | hop
      · rw [checkLotteryRoom_fst_mem env cfg tm room op hop]
        rfl
      · rfl
      · exact ih op hop

theorem checkLotteryRoomList_no_join (env : Env) (cfg : TaskConfigT) (tm : TaskModuleT)
    (a p : String) (page : Nat) :
    ∀ op ∈ (checkLotteryRoomList env cfg tm a p page).1, isJoinLot op = false := by
  intro op hop
  have hfst := getLotteryRoomList_fst env a p page LotType.lottery
  unfold checkLotteryRoomList at hop
  rcases hgl : getLotteryRoomList env a p page LotType.lottery with ⟨tr, r⟩
  rw [hgl] at hop hfst
  simp only at hfst
  subst hfst
  cases r with
  | error e =>
    simp only [List.mem_cons, List.not_mem_nil, or_false] at hop
    rcases hop with rfl | rfl <;> rfl
  | ok roomList =>
    simp only [List.cons_append, List.nil_append, List.mem_cons] at hop
    rcases hop with rfl | rfl | hop
    · rfl
    · rfl
    · exact checkLotteryRooms_no_join env cfg tm roomList op hop

theorem doLotteryRooms_followed (env : Env) (st : List FollowId)
    (rooms : List CheckedLottery) :
    joinsFollowedBy isJoinLot 300 (doLotteryRooms env st rooms).1 = true := by
  induction rooms generalizing st with
  | nil => rfl
  | cons room rest ih =>
    simp only [doLotteryRooms, doLottery_fst, List.cons_append, List.nil_append]
    rw [joinsFollowedBy_cons_join_delay, joinsFollowedBy_cons_of_not_join _ _ _ _ rfl]
    exact ih _

theorem doLotteryPages_followed (env : Env) (cfg : TaskConfigT) (tm : TaskModuleT)
    (a p : String) (n pg : Nat) (st : List FollowId) :
    joinsFollowedBy isJoinLot 300 (doLotteryPages env cfg tm a p st n pg).1 = true := by
  induction n generalizing st pg with
  | zero => rfl
  | succ n ih =>
    simp only [doLotteryPages]
    rcases hcl : checkLotteryRoomList env cfg tm a p pg with ⟨tr, r⟩
    have hnj : ∀ op ∈ tr, isJoinLot op = false := by
      intro op hop
      have := checkLotteryRoomList_no_join env cfg tm a p pg
      rw [hcl] at this
      exact this op hop
    cases r with
    | error e => exact joinsFollowedBy_of_no_join _ _ _ hnj
    | ok rooms =>
      simp only
      exact joinsFollowedBy_append _ _ _ _
        (joinsFollowedBy_append _ _ _ _ (joinsFollowedBy_of_no_join _ _ _ hnj)
          (doLotteryRooms_followed env st rooms))
        (ih _ _)

theorem doLotteryAreas_followed (env : Env) (cfg : TaskConfigT) (tm : TaskModuleT)
    (st : List FollowId) (l : List LiveAreaType) :
    joinsFollowedBy isJoinLot 300 (doLotteryAreas env cfg tm st l).1 = true := by
  induction l generalizing st with
  | nil => rfl
  | cons area rest ih =>
    simp only [doLotteryAreas, doLotteryArea]
    rcases h : doLotteryPages env cfg tm area.areaId area.parentId st cfg.LOTTERY_PAGE_NUM 1
      with ⟨tr, st1, err⟩
    have htr : joinsFollowedBy isJoinLot 300 tr = true := by
      have := doLotteryPages_followed env cfg tm area.areaId area.parentId cfg.LOTTERY_PAGE_NUM 1 st
      rw [h] at this
      exact this
    cases err with
    | some e => exact htr
    | none => exact joinsFollowedBy_append _ _ _ _ htr (ih _)

theorem doLotteryGroups_followed (env : Env) (cfg : TaskConfigT) (tm : TaskModuleT)
    (st : List FollowId) (l : List (List LiveAreaType)) :
    joinsFollowedBy isJoinLot 300 (doLotteryGroups env cfg tm st l).1 = true := by
  induction l generalizing st with
  | nil => rfl
  | cons areas rest ih =>
    simp only [doLotteryGroups]
    rcases h : doLotteryAreas env cfg tm st areas with ⟨tr, st1, err⟩
    have htr : joinsFollowedBy isJoinLot 300 tr = true := by
      have := doLotteryAreas_followed env cfg tm st areas
      rw [h] at this
      exact this
    cases err with
    | some e => exact htr
    | none => exact joinsFollowedBy_append _ _ _ _ htr (ih _)

theorem liveLotteryService_followed (env : Env) (cfg : TaskConfigT) (tm : TaskModuleT) :
    joinsFollowedBy isJoinLot 300 (liveLotteryService env cfg tm).1 = true := by
  unfold liveLotteryService
  have hfst := getLiveArea_fst env
  rcases hga : getLiveArea env with ⟨tr, r⟩
  rw [hga] at hfst
  simp only at hfst
  subst hfst
  cases r with
  | error e => rfl
  | ok areaList =>
    simp only
    rcases h : doLotteryGroups env cfg tm [] areaList with ⟨tr2, st, err⟩
    have htr : joinsFollowedBy isJoinLot 300 tr2 = true := by
      have := doLotteryGroups_followed env cfg tm [] areaList
      rw [h] at this
      exact this
    cases err with
    | some e => exact joinsFollowedBy_append _ _ _ _ (by rfl) htr
    | none => exact joinsFollowedBy_append _ _ _ _ (by rfl) htr

theorem pushIfNotExist_nodup (l : List FollowId) (v : FollowId) (h : l.Nodup) :
    (pushIfNotExist l v).Nodup := by
  unfold pushIfNotExist
  split
  · exact h
  · next hv => simp [List.nodup_append, h, hv]

theorem foldl_pushIfNotExist_nodup (xs : List String) (l : List FollowId) (h : l.Nodup) :
    (xs.foldl (fun s text => pushIfNotExist s (FollowId.str text)) l).Nodup := by
  induction xs generalizing l with
  | nil => exact h
  | cons x xs ih => exact ih _ (pushIfNotExist_nodup _ _ h)

theorem doLottery_nodup (env : Env) (st : List FollowId) (l : CheckedLottery)
    (h : st.Nodup) : (doLottery env st l).2.Nodup := by
  unfold doLottery
  cases env.joinLottery l.id l.gift_id l.gift_num with
  | error e => exact h
  | ok resp =>
    by_cases hc : resp.code ≠ 0
    · simpa [hc] using h
    · by_cases hf : l.require_type = RequireType.Follow
      · simp only [hc, hf, if_false, if_true, reduceIte]
        exact foldl_pushIfNotExist_nodup _ _ (pushIfNotExist_nodup _ _ h)
      · simpa [hc, hf] using h

theorem doLotteryRooms_nodup (env : Env) (st : List FollowId)
    (rooms : List CheckedLottery) (h : st.Nodup) :
    (doLotteryRooms env st rooms).2.Nodup := by
  induction rooms generalizing st with
  | nil => exact h
  | cons room rest ih => exact ih _ (doLottery_nodup env st room h)

theorem doLotteryPages_nodup (env : Env) (cfg : TaskConfigT) (tm : TaskModuleT)
    (a p : String) (n pg : Nat) (st : List FollowId) (h : st.Nodup) :
    (doLotteryPages env cfg tm a p st n pg).2.1.Nodup := by
  induction n generalizing st pg with
  | zero => exact h
  | succ n ih =>
    simp only [doLotteryPages]
    rcases checkLotteryRoomList env cfg tm a p pg with ⟨tr, r⟩
    cases r with
    | error e => exact h
    | ok rooms => exact ih _ _ (doLotteryRooms_nodup env st rooms h)

theorem doLotteryAreas_nodup (env : Env) (cfg : TaskConfigT) (tm : TaskModuleT)
    (st : List FollowId) (l : List LiveAreaType) (h : st.Nodup) :
    (doLotteryAreas env cfg tm st l).2.1.Nodup := by
  induction l generalizing st with
  | nil => exact h
  | cons area rest ih =>
    simp only [doLotteryAreas, doLotteryArea]
    rcases hp : doLotteryPages env cfg tm area.areaId area.parentId st cfg.LOTTERY_PAGE_NUM 1
      with ⟨tr, st1, err⟩
    have hst1 : st1.Nodup := by
      have := doLotteryPages_nodup env cfg tm area.areaId area.parentId
        cfg.LOTTERY_PAGE_NUM 1 st h
      rw [hp] at this
      exact this
    cases err with
    | some e => exact hst1
    | none => exact ih _ hst1

theorem doLotteryGroups_nodup (env : Env) (cfg : TaskConfigT) (tm : TaskModuleT)
    (st : List FollowId) (l : List (List LiveAreaType)) (h : st.Nodup) :
    (doLotteryGroups env cfg tm st l).2.1.Nodup := by
  induction l generalizing st with
  | nil => exact h
  | cons areas rest ih =>
    simp only [doLotteryGroups]
    rcases ha : doLotteryAreas env cfg tm st areas with ⟨tr, st1, err⟩
    have hst1 : st1.Nodup := by
      have := doLotteryAreas_nodup env cfg tm st areas h
      rw [ha] at this
      exact this
    cases err with
    | some e => exact hst1
    | none => exact ih _ hst1

theorem countJoinRed_append (a b : Trace) (rid : Nat) :
    countJoinRed (a ++ b) rid = countJoinRed a rid + countJoinRed b rid := by
  simp [countJoinRed, List.countP_append]

theorem countJoinRed_no_join (tr : Trace) (rid : Nat)
    (h : ∀ op ∈ tr, isJoinRed op = false) : countJoinRed tr rid = 0 := by
  rw [countJoinRed, List.countP_eq_zero]
  intro op hop
  have := h op hop
  cases op <;> simp_all [isJoinRed]

theorem doRedPackRooms_count (env : Env) (st : List FollowId) (rooms : List RedPacket)
    (rid : Nat) :
    countJoinRed (doRedPackRooms env st rooms).1 rid
      = rooms.countP (fun rp => rp.room_id == rid) := by
  induction rooms generalizing st with
  | nil => rfl
  | cons room rest ih =>
    simp only [doRedPackRooms, doRedPacket_fst, List.cons_append, List.nil_append]
    have hr := ih (doRedPacket env st room).2
    simp only [countJoinRed, List.countP_cons] at hr ⊢
    simp [hr]

theorem getRedPacketRooms_count (env : Env) (l : List LiveRoomList) (rid : Nat) :
    (getRedPacketRooms env l).2.countP (fun rp => rp.room_id == rid)
      = if redQualifies env rid then l.countP (fun room => room.roomid == rid) else 0 := by
  induction l with
  | nil => simp [getRedPacketRooms]
  | cons room rest ih =>
    simp only [getRedPacketRooms]
    cases h : (getRedPacketId env room.roomid).2 with
    | none =>
      simp only [h, List.countP_cons]
      by_cases hr : room.roomid = rid
      · have hq : redQualifies env rid = false := by
          rw [← hr]
          unfold redQualifies
          rw [h]
        simp [ih, hq]
      · simp [ih, hr]
    | some lotId =>
      simp only [h]
      by_cases hz : lotId = 0
      · rw [if_neg (by simp [hz])]
        rw [List.countP_cons]
        by_cases hr : room.roomid = rid
        · have hq : redQualifies env rid = false := by
            rw [← hr]
            unfold redQualifies
            rw [h]
            simp [hz]
          simp [ih, hq]
        · simp [ih, hr]
      · rw [if_pos hz]
        simp only [List.countP_cons]
        by_cases hr : room.roomid = rid
        · have hq : redQualifies env rid = true := by
            rw [← hr]
            unfold redQualifies
            rw [h]
            simpa using hz
          simp [ih, hq, hr]
        · simp [ih, hr]

theorem mem_getRedPacketRooms_qualifies (env : Env) (l : List LiveRoomList) :
    ∀ rp ∈ (getRedPacketRooms env l).2, redQualifies env rp.room_id = true := by
  induction l with
  | nil => simp [getRedPacketRooms]
  | cons room rest ih =>
    intro rp hrp
    simp only [getRedPacketRooms] at hrp
    cases h : (getRedPacketId env room.roomid).2 with
    | none =>
      simp only [h] at hrp
      exact ih rp hrp
    | some lotId =>
      simp only [h] at hrp
      by_cases hz : lotId = 0
      · rw [if_neg (by simp [hz])] at hrp
        exact ih rp hrp
      · rw [if_pos hz] at hrp
        simp only [List.mem_cons] at hrp
        rcases hrp with rfl | hrp
        · unfold redQualifies
          simp only
          rw [h]
          simpa using hz
        · exact ih rp hrp

theorem mem_getRedPacketRoom_qualifies (env : Env) (a p : String) (page : Nat)
    (tr : Trace) (rooms : List RedPacket)
    (h : getRedPacketRoom env a p page = (tr, Except.ok rooms)) :
    ∀ rp ∈ rooms, redQualifies env rp.room_id = true := by
  unfold getRedPacketRoom at h
  rcases hgl : getLotteryRoomList env a p page LotType.redPack with ⟨tr0, r⟩
  rw [hgl] at h
  cases r with
  | error e => simp at h
  | ok roomList =>
    simp only [Prod.mk.injEq, Except.ok.injEq] at h
    rw [← h.2]
    exact mem_getRedPacketRooms_qualifies env roomList

theorem doRedPackPages_count_zero (env : Env) (a p : String) (rid : Nat)
    (hq : redQualifies env rid = false) (n pg : Nat) (st : List FollowId) :
    countJoinRed (doRedPackPages env a p st n pg).1 rid = 0 := by
  induction n generalizing st pg with
  | zero => rfl
  | succ n ih =>
    simp only [doRedPackPages]
    rcases hgr : getRedPacketRoom env a p pg with ⟨tr, r⟩
    have htr : countJoinRed tr rid = 0 := by
      apply countJoinRed_no_join
      intro op hop
      have := getRedPacketRoom_no_join env a p pg
      rw [hgr] at this
      exact this op hop
    cases r with
    | error e => exact htr
    | ok rooms =>
      simp only [countJoinRed_append, htr]
      have hrooms : countJoinRed (doRedPackRooms env st rooms).1 rid = 0 := by
        rw [doRedPackRooms_count, List.countP_eq_zero]
        intro rp hrp
        have := mem_getRedPacketRoom_qualifies env a p pg tr rooms hgr rp hrp
        simp only [ne_eq, beq_iff_eq]
        intro hrr
        rw [hrr] at this
        rw [this] at hq
        exact absurd hq (by simp)
      simp [hrooms, ih]

theorem doRedPackArea_one_count (env : Env) (st : List FollowId) (a p : String)
    (rid : Nat) (tr0 : Trace) (roomList : List LiveRoomList)
    (hfetch : getLotteryRoomList env a p 1 LotType.redPack = (tr0, Except.ok roomList)) :
    countJoinRed (doRedPackArea env st a p 1).1 rid
      = if redQualifies env rid then roomList.countP (fun room => room.roomid == rid)
        else 0 := by
  unfold doRedPackArea doRedPackPages
  unfold getRedPacketRoom
  rw [hfetch]
  simp only [doRedPackPages, countJoinRed_append, List.append_nil]
  have htr0 : countJoinRed tr0 rid = 0 := by
    apply countJoinRed_no_join
    intro op hop
    have := getLotteryRoomList_fst env a p 1 LotType.redPack
    rw [hfetch] at this
    simp only at this
    subst this
    simp only [List.mem_cons, List.not_mem_nil, or_false] at hop
    rcases hop with rfl | rfl <;> rfl
  have hloop : countJoinRed (getRedPacketRooms env roomList).1 rid = 0 := by
    apply countJoinRed_no_join
    exact getRedPacketRooms_no_join env roomList
  rw [htr0, hloop, doRedPackRooms_count, getRedPacketRooms_count]
  simp

theorem checkLotteryRoomList_eq_ok (env : Env) (cfg : TaskConfigT) (tm : TaskModuleT)
    (a p : String) (pg : Nat) (resp : RoomResp)
    (h : env.getLiveRoom p a pg = Except.ok resp) :
    checkLotteryRoomList env cfg tm a p pg
      = ([Op.delay 100, Op.getLiveRoom p a pg] ++
           (checkLotteryRooms env cfg tm (pendentLottery resp.data.list).1).1,
         Except.ok (checkLotteryRooms env cfg tm (pendentLottery resp.data.list).1).2) := by
  unfold checkLotteryRoomList getLotteryRoomList
  rw [h]

theorem doLotteryPages_err_none (env : Env) (cfg : TaskConfigT) (tm : TaskModuleT)
    (a p : String) (n pg : Nat) (st : List FollowId)
    (hfetch : ∀ q, pg ≤ q → q < pg + n → ∃ resp, env.getLiveRoom p a q = Except.ok resp) :
    (doLotteryPages env cfg tm a p st n pg).2.2 = none := by
  induction n generalizing st pg with
  | zero => rfl
  | succ n ih =>
    obtain ⟨resp, hresp⟩ := hfetch pg (le_refl pg) (by omega)
    simp only [doLotteryPages, checkLotteryRoomList_eq_ok env cfg tm a p pg resp hresp]
    exact ih _ _ (fun q h1 h2 => hfetch q (by omega) (by omega))

theorem mem_doLotteryPages_trace (env : Env) (cfg : TaskConfigT) (tm : TaskModuleT)
    (a p : String) (n pg : Nat) (st : List FollowId)
    (hfetch : ∀ q, pg ≤ q → q < pg + n → ∃ resp, env.getLiveRoom p a q = Except.ok resp) :
    ∀ q, pg ≤ q → q < pg + n →
      ∀ x ∈ (checkLotteryRoomList env cfg tm a p q).1,
        x ∈ (doLotteryPages env cfg tm a p st n pg).1 := by
  induction n generalizing st pg with
  | zero => intro q h1 h2; omega
  | succ n ih =>
    intro q h1 h2 x hx
    obtain ⟨resp, hresp⟩ := hfetch pg (le_refl pg) (by omega)
    have heq := checkLotteryRoomList_eq_ok env cfg tm a p pg resp hresp
    simp only [doLotteryPages, heq]
    simp only [List.append_assoc, List.mem_append]
    by_cases hq : q = pg
    · subst hq
      rw [heq] at hx
      simp only [List.mem_append] at hx
      tauto
    · right; right; right
      exact ih _ _ (fun r hr1 hr2 => hfetch r (by omega) (by omega)) q (by omega) (by omega) x hx

theorem mem_checkLotteryRooms_check (env : Env) (cfg : TaskConfigT) (tm : TaskModuleT)
    (roomList : List LiveRoomList) :
    ∀ room ∈ roomList, room.uid ∉ cfg.LOTTERY_UP_BLACKLIST →
      Op.checkLottery room.roomid ∈ (checkLotteryRooms env cfg tm roomList).1 := by
  induction roomList with
  | nil => simp
  | cons r rest ih =>
    intro room hroom hbl
    simp only [List.mem_cons] at hroom
    simp only [checkLotteryRooms]
    rcases hroom with rfl | hroom
    · cases h : (checkLotteryRoom env cfg tm room).2 <;>
        simp only [h, List.append_assoc, List.mem_append,
          checkLotteryRoom_fst env cfg tm room hbl, List.mem_cons] <;> tauto
    · cases h : (checkLotteryRoom env cfg tm r).2 <;>
        simp only [h, List.append_assoc, List.mem_append] <;>
        exact Or.inr (by
          first
          | exact ih room hroom hbl
          | exact Or.inr (ih room hroom hbl))

theorem mem_checkLotteryRoomList_check (env : Env) (cfg : TaskConfigT) (tm : TaskModuleT)
    (a p : String) (pg : Nat) (tr : Trace) (roomList : List LiveRoomList)
    (h : getLotteryRoomList env a p pg LotType.lottery = (tr, Except.ok roomList)) :
    ∀ room ∈ roomList, room.uid ∉ cfg.LOTTERY_UP_BLACKLIST →
      Op.checkLottery room.roomid ∈ (checkLotteryRoomList env cfg tm a p pg).1 := by
  intro room hroom hbl
  unfold checkLotteryRoomList
  rw [h]
  simp only [List.mem_append]
  exact Or.inr (mem_checkLotteryRooms_check env cfg tm roomList room hroom hbl)

theorem mem_checkLotteryRoomList_fetch (env : Env) (cfg : TaskConfigT) (tm : TaskModuleT)
    (a p : String) (pg : Nat) :
    Op.getLiveRoom p a pg ∈ (checkLotteryRoomList env cfg tm a p pg).1 := by
  have hfst := getLotteryRoomList_fst env a p pg LotType.lottery
  unfold checkLotteryRoomList
  rcases hgl : getLotteryRoomList env a p pg LotType.lottery with ⟨tr, r⟩
  rw [hgl] at hfst
  simp only at hfst
  subst hfst
  cases r with
  | error e => simp
  | ok roomList => simp

theorem getRequireUp_ABC : getRequireUp "关注主播 A + B + C" = ["B", "C"] := rfl

theorem liveLotteryServiceHeap_preserves (env : Env) (cfg : TaskConfigT) (tm : TaskModuleT)
    (h : AccHeap) (i : Nat) (hi : i < h.arrays.length) :
    (liveLotteryServiceHeap env cfg tm h).1.arrays[i]? = h.arrays[i]? := by
  unfold liveLotteryServiceHeap
  rcases getLiveArea env with ⟨tr, r⟩
  cases r with
  | error e => exact List.getElem?_append_left hi
  | ok areaList => exact List.getElem?_append_left hi

theorem liveRedPackServiceHeap_preserves (env : Env) (cfg : TaskConfigT)
    (h : AccHeap) (i : Nat) (hi : i < h.arrays.length) :
    (liveRedPackServiceHeap env cfg h).1.arrays[i]? = h.arrays[i]? := by
  unfold liveRedPackServiceHeap
  rcases getLiveArea env with ⟨tr, r⟩
  cases r with
  | error e => exact List.getElem?_append_left hi
  | ok areaList => exact List.getElem?_append_left hi

/-! ### Claim theorems -/

/-- C1, counterexample: the red-packet pipeline entry point is not
deduplicated.  In envDup both rooms of the page belong to streamer uid 5
and both joins succeed, and the returned accumulator holds uid 5 twice. -/
theorem c1_counterexample :
    (liveRedPackService envDup cfgOnePage).2
      = Except.ok [FollowId.num 5, FollowId.num 5] ∧
    ¬ ([FollowId.num 5, FollowId.num 5] : List FollowId).Nodup :=
  ⟨rfl, by decide⟩

/-- C1, amended: the lottery pipeline entry point returns a deduplicated
list (every write goes through pushIfNotExist); the red-packet pipeline
appends the uid of every successful join unconditionally, so its list can
hold duplicates. -/
theorem c1_theorem (env : Env) (cfg : TaskConfigT) (tm : TaskModuleT) :
    ∀ l, (liveLotteryService env cfg tm).2 = Except.ok l → l.Nodup := by
  intro l hl
  unfold liveLotteryService at hl
  split at hl
  · simp at hl
  · split at hl
    · simp at hl
    · rename_i tr1 areaList hga x2 tr2 st hg
      simp only [Except.ok.injEq] at hl
      subst hl
      have hn := doLotteryGroups_nodup env cfg tm [] areaList List.nodup_nil
      rw [hg] at hn
      exact hn

/-- C1, witness: on envLot the lottery pipeline succeeds with a three-entry
accumulator, which c1_theorem shows is deduplicated. -/
theorem c1_witness :
    (liveLotteryService envLot cfgOnePage tmA).2
        = Except.ok [FollowId.num 9, FollowId.str "B", FollowId.str "C"] ∧
    List.Nodup [FollowId.num 9, FollowId.str "B", FollowId.str "C"] :=
  ⟨rfl, c1_theorem envLot cfgOnePage tmA
    [FollowId.num 9, FollowId.str "B", FollowId.str "C"] rfl⟩

/-- C2: a successful lottery join with requirement type follow and
requirement text 关注主播 A + B + C, starting from an empty accumulator,
leaves exactly the primary uid, B and C: the marker is stripped, the rest
split on plus with surrounding whitespace, and the first token dropped. -/
theorem c2_theorem (env : Env) (lottery : CheckedLottery) (resp : JoinResp)
    (hf : lottery.require_type = RequireType.Follow)
    (ht : lottery.require_text = "关注主播 A + B + C")
    (hj : env.joinLottery lottery.id lottery.gift_id lottery.gift_num = Except.ok resp)
    (hcode : resp.code = 0) :
    (doLottery env [] lottery).2
      = [FollowId.num lottery.uid, FollowId.str "B", FollowId.str "C"] := by
  unfold doLottery
  rw [hj]
  simp only [hcode, ne_eq, not_true_eq_false, if_false, hf, reduceIte, ht, getRequireUp_ABC]
  simp [pushIfNotExist]

/-- C2, witness: the concrete lottery join of envLot on lotCheckedA. -/
theorem c2_witness :
    (doLottery envLot [] lotCheckedA).2
      = [FollowId.num lotCheckedA.uid, FollowId.str "B", FollowId.str "C"] :=
  c2_theorem envLot lotCheckedA ⟨0, ""⟩ rfl rfl rfl rfl

/-- C3, counterexample: a badge-carrying room whose red-packet list is
non-empty with status 0 (not closed) but lot_id 0 is joined zero times in
the run, not exactly once as claimed. -/
theorem c3_counterexample :
    (getLotteryRoomList envZero "1" "2" 1 LotType.redPack).2 = Except.ok [roomR1] ∧
    envZero.checkRedPacket 10 = Except.ok ⟨0, ⟨some [⟨0, 0⟩]⟩⟩ ∧
    countJoinRed (doRedPackArea envZero [] "1" "2" 1).1 10 = 0 :=
  ⟨rfl, rfl, rfl⟩

/-- C3, amended: a room whose red-packet check does not qualify it (status
2, absent or empty red-packet list, failed check, or zero lot_id) is never
joined in a run over any number of pages; in a single-page run, the number
of join requests for a room id equals its number of listings on the page
when the check qualifies it (code 0, non-empty list, first-entry status not
2 and a non-zero lot_id) — in particular a qualifying room listed once is
joined exactly once — and zero otherwise. -/
theorem c3_theorem (env : Env) (st : List FollowId) (a p : String) (rid : Nat)
    (tr0 : Trace) (roomList : List LiveRoomList)
    (hfetch : getLotteryRoomList env a p 1 LotType.redPack = (tr0, Except.ok roomList)) :
    (redQualifies env rid = false →
      ∀ st2 num, countJoinRed (doRedPackArea env st2 a p num).1 rid = 0) ∧
    countJoinRed (doRedPackArea env st a p 1).1 rid
      = (if redQualifies env rid then roomList.countP (fun room => room.roomid == rid)
         else 0) :=
  ⟨fun hq st2 num => doRedPackPages_count_zero env a p rid hq num 1 st2,
   doRedPackArea_one_count env st a p rid tr0 roomList hfetch⟩

/-- C3, witness: in envDup room 10 qualifies, is listed once on the page,
and is joined exactly once. -/
theorem c3_witness :
    countJoinRed (doRedPackArea envDup [] "1" "2" 1).1 10
      = if redQualifies envDup 10
        then List.countP (fun room => room.roomid == 10) [roomR1, roomR2] else 0 :=
  (c3_theorem envDup [] "1" "2" 10 [Op.delay 100, Op.getLiveRoom "2" "1" 1]
    [roomR1, roomR2] rfl).2

/-- C4, counterexample: in envDup the trace of the red-packet run contains
a join request that is not immediately preceded by a 200ms delay (the first
join follows the 100ms delay of the candidate scan): the delays follow the
joins rather than precede them. -/
theorem c4_counterexample :
    Op.joinRedPacket 10 7 5 ∈ (liveRedPackService envDup cfgOnePage).1 ∧
    isJoinRed (Op.joinRedPacket 10 7 5) = true ∧
    joinsPrecededBy isJoinRed 200 (liveRedPackService envDup cfgOnePage).1 = false :=
  ⟨by decide, rfl, rfl⟩

/-- C4, amended: in the outbound-operation sequence of every pipeline run,
every red-packet join request is immediately followed by a 200ms fixed
delay, and every lottery join request is immediately followed by a 300ms
fixed delay. -/
theorem c4_theorem (envR : Env) (cfgR : TaskConfigT) (envL : Env)
    (cfgL : TaskConfigT) (tmL : TaskModuleT) :
    joinsFollowedBy isJoinRed 200 (liveRedPackService envR cfgR).1 = true ∧
    joinsFollowedBy isJoinLot 300 (liveLotteryService envL cfgL tmL).1 = true :=
  ⟨liveRedPackService_followed envR cfgR, liveLotteryService_followed envL cfgL tmL⟩

/-- C5: when the category fetch returns a response (no exception), the
category fetcher returns the transform of the response data whatever the
status code is; a non-success code is only logged and never aborts. -/
theorem c5_theorem (env : Env) (resp : AreaResp)
    (h : env.getArea = Except.ok resp) :
    getLiveArea env = ([Op.getArea], Except.ok (toLiveAreaList resp.data)) := by
  unfold getLiveArea
  rw [h]

/-- C5, witness: envLot responds with the non-success code 7 yet the
fetcher still returns the transformed category list. -/
theorem c5_witness :
    getLiveArea envLot
      = ([Op.getArea], Except.ok (toLiveAreaList ⟨[⟨[⟨"1", "2"⟩]⟩]⟩)) :=
  c5_theorem envLot ⟨7, "err", ⟨[⟨[⟨"1", "2"⟩]⟩]⟩⟩ rfl

/-- C6: when every page fetch of an area run responds, the run never
propagates an exception regardless of how the per-room check and join
calls behave (they may all raise), every page is still fetched, and every
non-blacklisted room of every fetched page still receives its check call. -/
theorem c6_theorem (env : Env) (cfg : TaskConfigT) (tm : TaskModuleT)
    (st : List FollowId) (a p : String) (num : Nat)
    (hfetch : ∀ pg, 1 ≤ pg → pg ≤ num →
      ∃ resp, env.getLiveRoom p a pg = Except.ok resp) :
    (doLotteryArea env cfg tm st a p num).2.2 = none ∧
    (∀ pg, 1 ≤ pg → pg ≤ num →
      Op.getLiveRoom p a pg ∈ (doLotteryArea env cfg tm st a p num).1) ∧
    (∀ pg tr roomList, 1 ≤ pg → pg ≤ num →
      getLotteryRoomList env a p pg LotType.lottery = (tr, Except.ok roomList) →
      ∀ room ∈ roomList, room.uid ∉ cfg.LOTTERY_UP_BLACKLIST →
        Op.checkLottery room.roomid ∈ (doLotteryArea env cfg tm st a p num).1) := by
  have hrange : ∀ q, 1 ≤ q → q < 1 + num → ∃ resp, env.getLiveRoom p a q = Except.ok resp :=
    fun q h1 h2 => hfetch q h1 (by omega)
  refine ⟨doLotteryPages_err_none env cfg tm a p num 1 st hrange, ?_, ?_⟩
  · intro pg h1 h2
    exact mem_doLotteryPages_trace env cfg tm a p num 1 st hrange pg h1 (by omega)
      _ (mem_checkLotteryRoomList_fetch env cfg tm a p pg)
  · intro pg tr roomList h1 h2 hgl room hroom hbl
    exact mem_doLotteryPages_trace env cfg tm a p num 1 st hrange pg h1 (by omega)
      _ (mem_checkLotteryRoomList_check env cfg tm a p pg tr roomList hgl room hroom hbl)

/-- C6, witness: in envThrow every check and join raises, yet the area run
finishes without error and the lottery room still got its check call. -/
theorem c6_witness :
    (doLotteryArea envThrow cfgOnePage tmA [] "1" "2" 1).2.2 = none ∧
    Op.checkLottery 20 ∈ (doLotteryArea envThrow cfgOnePage tmA [] "1" "2" 1).1 := by
  have h := c6_theorem envThrow cfgOnePage tmA [] "1" "2" 1
    (fun pg h1 h2 => ⟨⟨0, "", ⟨[roomL1]⟩⟩, by
      have hpg : pg = 1 := by omega
      subst hpg
      rfl⟩)
  exact ⟨h.1, h.2.2 1 [Op.delay 100, Op.getLiveRoom "2" "1" 1] [roomL1]
    (by decide) (by decide) rfl roomL1 (by decide) (by decide)⟩

/-- C7: a draw passing the earlier filters whose requirement type is level
is accepted exactly when the configured user level is at least the required
value. -/
theorem c7_theorem (env : Env) (cfg : TaskConfigT) (tm : TaskModuleT)
    (room : LiveRoomList) (resp : CheckLotteryResp) (data : LotteryData)
    (hb : room.uid ∉ cfg.LOTTERY_UP_BLACKLIST)
    (hc : env.checkLottery room.roomid = Except.ok resp)
    (hcode : resp.code = 0)
    (hdata : resp.data = some data)
    (hpat : (!isIncludedName cfg data.award_name && isExcludedName cfg data.award_name)
      = false)
    (hstatus : data.status = TianXuanStatus.Enabled)
    (hprice : data.gift_price = 0)
    (hreq : data.require_type = RequireType.Level) :
    ((checkLotteryRoom env cfg tm room).2 = some data
      ↔ tm.userLevel ≥ data.require_value) := by
  unfold checkLotteryRoom
  rw [if_neg hb, hc]
  simp only [hcode, hdata, hpat, hstatus, hprice, hreq]
  by_cases hl : tm.userLevel ≥ data.require_value <;> simp [hl]

/-- C7, witness: level requirement 10 accepted at configured level 10. -/
theorem c7_witness :
    ((checkLotteryRoom envLevel cfgOnePage tmA roomL1).2 = some drawLevel ↔ 10 ≥ 10) :=
  c7_theorem envLevel cfgOnePage tmA roomL1 ⟨0, "", some drawLevel⟩ drawLevel
    (by decide) rfl rfl rfl rfl rfl rfl rfl

/-- C8: an award name matching both an exclude pattern and an include
pattern is not skipped on pattern grounds (include overrides exclude),
while matching only an exclude pattern skips the draw. -/
theorem c8_theorem (env : Env) (cfg : TaskConfigT) (tm : TaskModuleT)
    (room : LiveRoomList) (resp : CheckLotteryResp) (data : LotteryData)
    (hb : room.uid ∉ cfg.LOTTERY_UP_BLACKLIST)
    (hc : env.checkLottery room.roomid = Except.ok resp)
    (hcode : resp.code = 0)
    (hdata : resp.data = some data)
    (hstatus : data.status = TianXuanStatus.Enabled)
    (hprice : data.gift_price = 0)
    (hreq : data.require_type = RequireType.None) :
    (isExcludedName cfg data.award_name = true →
      isIncludedName cfg data.award_name = true →
      (checkLotteryRoom env cfg tm room).2 = some data) ∧
    (isExcludedName cfg data.award_name = true →
      isIncludedName cfg data.award_name = false →
      (checkLotteryRoom env cfg tm room).2 = none) := by
  unfold checkLotteryRoom
  rw [if_neg hb, hc]
  simp only [hcode, hdata, hstatus, hprice, hreq]
  constructor
  · intro hex hin
    simp [hex, hin]
  · intro hex hin
    simp [hex, hin]

/-- C8, witness: award name 测试奖品 matches exclude pattern 测试 and
include pattern 测试奖 and is accepted. -/
theorem c8_witness :
    (checkLotteryRoom envTest cfgPat tmA roomL1).2 = some drawTest :=
  (c8_theorem envTest cfgPat tmA roomL1 ⟨0, "", some drawTest⟩ drawTest
    (by decide) rfl rfl rfl rfl rfl rfl).1 rfl rfl

/-- C9: a pipeline run rebinds the accumulator to a fresh array, so the
arrays previously returned to callers are never mutated by a later run of
either service. -/
theorem c9_theorem (envL : Env) (cfgL : TaskConfigT) (tmL : TaskModuleT)
    (envR : Env) (cfgR : TaskConfigT) (h : AccHeap) (i : Nat)
    (hi : i < h.arrays.length) :
    (liveLotteryServiceHeap envL cfgL tmL h).1.arrays[i]? = h.arrays[i]? ∧
    (liveRedPackServiceHeap envR cfgR h).1.arrays[i]? = h.arrays[i]? :=
  ⟨liveLotteryServiceHeap_preserves envL cfgL tmL h i hi,
   liveRedPackServiceHeap_preserves envR cfgR h i hi⟩

/-- C9, witness: the array returned by an earlier run is intact after both
a lottery run and a red-packet run on the concrete heap. -/
theorem c9_witness :
    (liveLotteryServiceHeap envLot cfgOnePage tmA heap1).1.arrays[0]?
        = heap1.arrays[0]? ∧
    (liveRedPackServiceHeap envDup cfgOnePage heap1).1.arrays[0]?
        = heap1.arrays[0]? :=
  c9_theorem envLot cfgOnePage tmA envDup cfgOnePage heap1 0 (by decide)

/-- C10: a room whose first red-packet entry has lot_id 0 is excluded from
the candidate list of every page and is never joined in any run against
this environment, whatever its status. -/
theorem c10_theorem (env : Env) (rid : Nat) (resp : CheckRedPacketResp)
    (e : RedPocketEntry) (rest : List RedPocketEntry)
    (hc : env.checkRedPacket rid = Except.ok resp)
    (hp : resp.data.popularity_red_pocket = some (e :: rest))
    (hl : e.lot_id = 0) :
    (∀ a p page tr rooms, getRedPacketRoom env a p page = (tr, Except.ok rooms) →
      ∀ rp ∈ rooms, rp.room_id ≠ rid) ∧
    (∀ a p st num, countJoinRed (doRedPackArea env st a p num).1 rid = 0) := by
  have hq : redQualifies env rid = false := by
    unfold redQualifies getRedPacketId
    rw [hc]
    by_cases hcode : resp.code ≠ 0
    · simp [hcode]
    · simp only [hcode, if_false, reduceIte, hp]
      by_cases hs : e.lot_status = 2 <;> simp [hs, hl]
  constructor
  · intro a p page tr rooms hroom rp hrp hrr
    have hqr := mem_getRedPacketRoom_qualifies env a p page tr rooms hroom rp hrp
    rw [hrr, hq] at hqr
    exact absurd hqr (by simp)
  · intro a p st num
    exact doRedPackPages_count_zero env a p rid hq num 1 st

/-- C10, witness: in envZero the room with lot_id 0 is joined zero times
across a two-page run. -/
theorem c10_witness :
    countJoinRed (doRedPackArea envZero [] "1" "2" 2).1 10 = 0 :=
  (c10_theorem envZero 10 ⟨0, ⟨some [⟨0, 0⟩]⟩⟩ ⟨0, 0⟩ [] rfl rfl rfl).2 "1" "2" [] 2

end LiveLottery
